import Mathlib

/-!
# Verification of Hyra's amd64 machine-dependent core

Shallow embedding of `sys/arch/amd64/amd64/machdep.c` and
`sys/kern/kern_syslog.c` from the Hyra kernel, together with theorems
settling the specification claims about them.

Machine integers are modelled as `Nat` with explicit masking where the C
code relies on a fixed width.  Stateful C code becomes explicit state
passing; the multi-core bring-up path becomes a small-step interleaving
semantics.  External collaborators whose bodies are not part of the two
source files (the physical page allocator, `PHYS_TO_VIRT`, the
`fxsave`/`fxrstor` instructions, `vsnprintf`/`strlen`) are modelled from
the specification's description of their contracts; each such definition
says so in its doc comment.
-/

namespace Hyra

/-! ## Interrupt vector table (`interrupts_init`, machdep.c lines 72-89)

The IDT is a 256-entry table; `idt_set_desc(vec, flags, isr, ist)`
installs one gate.  We model the table as a map from vector number to an
optionally-installed gate descriptor, and `idt_set_desc` as a pointwise
update, which is what the external installer does per its contract
("given (vector, gate-kind, entry-point), install one dispatch entry").
The handler entry points and the two gate-flag constants live in headers
outside the given sources, so they are abstract parameters here; nothing
below depends on their values. -/

structure IdtEntry where
  flags : Nat
  isr : Nat
  ist : Nat
deriving DecidableEq, Repr

/-- The thirteen handler entry points `interrupts_init` installs, in the
order they appear in the source. -/
inductive Handler where
  | arith_err
  | nmi
  | breakpoint_handler
  | overflow
  | bound_range
  | invl_op
  | double_fault
  | invl_tss
  | segnp
  | ss_fault
  | general_prot
  | page_fault
  | syscall_isr
deriving DecidableEq, Repr

/-- The interrupt vector table: vector number to installed gate. -/
def Idt : Type := Nat → Option IdtEntry

/-- `idt_set_desc(vec, flags, isr, ist)`: install one dispatch entry. -/
def idt_set_desc (vec flags isr ist : Nat) (t : Idt) : Idt :=
  fun v => if v = vec then some ⟨flags, isr, ist⟩ else t v

/-- Apply a sequence of `idt_set_desc` calls in order (later calls
overwrite earlier ones, as sequential C calls do). -/
def idt_install : List (Nat × IdtEntry) → Idt → Idt
  | [], t => t
  | (vec, e) :: rest, t => idt_install rest (idt_set_desc vec e.flags e.isr e.ist t)

/-- The thirteen `idt_set_desc` calls of `interrupts_init`
(machdep.c lines 75-87), in source order.  `trapFlags` stands for
`IDT_TRAP_GATE_FLAGS`, `intUserFlags` for `IDT_INT_GATE_USER`, and
`addr` gives each handler's entry-point address (`ISR(func)`). -/
def interrupts_init_entries (trapFlags intUserFlags : Nat)
    (addr : Handler → Nat) : List (Nat × IdtEntry) :=
  [(0x0, ⟨trapFlags, addr Handler.arith_err, 0⟩),
   (0x2, ⟨trapFlags, addr Handler.nmi, 0⟩),
   (0x3, ⟨trapFlags, addr Handler.breakpoint_handler, 0⟩),
   (0x4, ⟨trapFlags, addr Handler.overflow, 0⟩),
   (0x5, ⟨trapFlags, addr Handler.bound_range, 0⟩),
   (0x6, ⟨trapFlags, addr Handler.invl_op, 0⟩),
   (0x8, ⟨trapFlags, addr Handler.double_fault, 0⟩),
   (0xA, ⟨trapFlags, addr Handler.invl_tss, 0⟩),
   (0xB, ⟨trapFlags, addr Handler.segnp, 0⟩),
   (0xC, ⟨trapFlags, addr Handler.ss_fault, 0⟩),
   (0xD, ⟨trapFlags, addr Handler.general_prot, 0⟩),
   (0xE, ⟨trapFlags, addr Handler.page_fault, 0⟩),
   (0x80, ⟨intUserFlags, addr Handler.syscall_isr, 0⟩)]

/-- `interrupts_init` (machdep.c lines 72-89): install the thirteen
gates in source order.  The trailing `idt_load()` loads the table into
the core and does not change the table's contents. -/
def interrupts_init (trapFlags intUserFlags : Nat) (addr : Handler → Nat)
    (t : Idt) : Idt :=
  idt_install (interrupts_init_entries trapFlags intUserFlags addr) t

/-- The entry a call sequence leaves at vector `v`: the last matching
write, if any. -/
def idt_lookup : List (Nat × IdtEntry) → Nat → Option IdtEntry
  | [], _ => none
  | (vec, e) :: rest, v =>
    match idt_lookup rest v with
    | some e' => some e'
    | none => if v = vec then some e else none

/-! ## Feature Enabler (`is_sse_supported` and the SSE block of
`processor_init`, machdep.c lines 91-98 and 227-240) -/

/-- `is_sse_supported` (machdep.c lines 91-98): CPUID leaf 1 is queried
and the function returns whether EDX has both bit 25 (SSE) and
bit 26 (SSE2) set.  `edx` is the feature-flag word the query returns. -/
def is_sse_supported (edx : Nat) : Bool :=
  edx.testBit 25 && edx.testBit 26

/-- The two privileged control registers the Feature Enabler writes. -/
structure CtrlRegs where
  cr0 : Nat
  cr4 : Nat
deriving DecidableEq, Repr

/-- Bitwise complement of `__BIT(2)` within a 64-bit word, the mask the
code ands into CR0 (`reg_tmp &= ~(__BIT(2))`). -/
def notBit2_64 : Nat := (2 ^ 64 - 1) ^^^ (2 ^ 2)

/-- The SSE-enable block of `processor_init` (machdep.c lines 227-240):
if `is_sse_supported()` then CR0 gets bit 2 (EM, emulate FP) cleared and
bit 1 (MP, native FP monitor) set, and CR4 gets bits 9 and 10
(`3 << 9`: OSFXSR and OSXMMEXCPT, the FXSAVE/FXRSTOR fast save/restore
bits) set; otherwise the kernel panics (modelled as `none`). -/
def sse_enable (edx : Nat) (r : CtrlRegs) : Option CtrlRegs :=
  if is_sse_supported edx then
    some { cr0 := (r.cr0 &&& notBit2_64) ||| (2 ^ 1),
           cr4 := r.cr4 ||| (3 <<< 9) }
  else
    none

/-! ## Process FPU Context Manager (`processor_init_pcb`,
`processor_free_pcb`, `processor_switch_to`, machdep.c lines 160-209) -/

/-- One floating-point/SIMD register image (the 512-byte FXSAVE area):
the x87 control word, the SSE control/status register, and the remaining
register content, abstracted as a number. -/
structure FpuImage where
  fcw : Nat
  mxcsr : Nat
  data : Nat
deriving DecidableEq, Repr

/-- FPU-relevant machine state: the live register image of the current
core plus the contents of every save area, keyed by virtual address. -/
structure FpuMachine where
  live : FpuImage
  mem : Nat → FpuImage

/-- Modelled from the spec: `amd64_fxsave(p)` (an instruction wrapper
outside the given sources) captures the live floating-point/SIMD
register image into the save area at address `p`. -/
def amd64_fxsave (p : Nat) (m : FpuMachine) : FpuMachine :=
  { m with mem := fun a => if a = p then m.live else m.mem a }

/-- Modelled from the spec: `amd64_fxrstor(p)` loads the save area at
address `p` into the live registers. -/
def amd64_fxrstor (p : Nat) (m : FpuMachine) : FpuMachine :=
  { m with live := m.mem p }

/-- The process control block: the FPU save-area pointer
(`pcb->fpu_state`); `none` is the C null pointer. -/
structure Pcb where
  fpu_state : Option Nat
deriving DecidableEq, Repr

/-- A process (`struct proc`), restricted to the field machdep.c
touches. -/
structure Proc where
  pcb : Pcb
deriving DecidableEq, Repr

/-- The raw value of a C pointer (null is address 0). -/
def ptrVal : Option Nat → Nat
  | none => 0
  | some a => a

/-- `processor_switch_to` (machdep.c lines 199-209): if `old_td` is not
null, `amd64_fxsave` the live image into its pcb's save area; then
always `amd64_fxrstor` the new pcb's save area into the live
registers. -/
def processor_switch_to (old_td : Option Proc) (new_td : Proc)
    (m : FpuMachine) : FpuMachine :=
  let m1 := match old_td with
    | some o => amd64_fxsave (ptrVal o.pcb.fpu_state) m
    | none => m
  amd64_fxrstor (ptrVal new_td.pcb.fpu_state) m1

/-- Modelled from the spec: the physical memory allocator
(`vm_alloc_pageframe` / `vm_free_pageframe`, bodies outside the given
sources): "allocate/free one or more physically addressed, fixed-size
page frames".  `free` is the pool of free page-frame base addresses,
each page-aligned; `freed` logs every frame handed back, so theorems
can observe what `release` frees. -/
structure PhysMem where
  free : List Nat
  freed : List Nat
deriving DecidableEq, Repr

def PAGESIZE : Nat := 4096

/-- Pool invariant: every free frame base is page-aligned. -/
def pageAligned (st : PhysMem) : Prop := ∀ a ∈ st.free, PAGESIZE ∣ a

/-- Modelled from the spec: `vm_alloc_pageframe(1)` returns one frame
from the pool, or fails when no physical page is available. -/
def vm_alloc_pageframe (st : PhysMem) : Option (Nat × PhysMem) :=
  match st.free with
  | [] => none
  | a :: rest => some (a, { st with free := rest })

/-- Modelled from the spec: `vm_free_pageframe(a, 1)` hands frame `a`
back to the pool (and logs it). -/
def vm_free_pageframe (a : Nat) (st : PhysMem) : PhysMem :=
  { free := st.free ++ [a], freed := st.freed ++ [a] }

/-- Modelled from the spec: "translate between physical and a directly
mapped virtual address" — adding the fixed direct-map offset `hhdm`. -/
def PHYS_TO_VIRT (hhdm pa : Nat) : Nat := hhdm + pa

/-- Modelled from the spec: the inverse translation. -/
def VIRT_TO_PHYS (hhdm va : Nat) : Nat := va - hhdm

/-- `FPU_FCW` (machdep.c line 164): the sysv ABI x87 control word. -/
def FPU_FCW : Nat := 0x33F

/-- `SSE_MXCSR` (machdep.c line 165): the sysv ABI MXCSR value. -/
def SSE_MXCSR : Nat := 0x1F80

/-- Result of `processor_init_pcb`: the C return value plus the process,
allocator and FPU-machine state it leaves behind. -/
structure PcbInitResult where
  ret : Int
  proc : Proc
  physmem : PhysMem
  machine : FpuMachine

/-- `processor_init_pcb` (machdep.c lines 160-184): allocate one page
frame for the FPU save area and store its direct-map address in
`pcb->fpu_state`; on allocation failure the stored pointer is null and
the function returns -1.  On success, `fldcw`/`ldmxcsr` load the sysv
ABI control defaults into the live registers, `amd64_fxsave` captures
the resulting image into the new save area, and the function
returns 0. -/
def processor_init_pcb (hhdm : Nat) (p : Proc) (st : PhysMem)
    (m : FpuMachine) : PcbInitResult :=
  match vm_alloc_pageframe st with
  | none => ⟨-1, { p with pcb := { fpu_state := none } }, st, m⟩
  | some (pa, st') =>
    let va := PHYS_TO_VIRT hhdm pa
    let m1 : FpuMachine :=
      { m with live := { m.live with fcw := FPU_FCW, mxcsr := SSE_MXCSR } }
    ⟨0, { p with pcb := { fpu_state := some va } }, st', amd64_fxsave va m1⟩

/-- Result of `processor_free_pcb`. -/
structure PcbFreeResult where
  ret : Int
  proc : Proc
  physmem : PhysMem
deriving DecidableEq, Repr

/-- `processor_free_pcb` (machdep.c lines 186-197): return -1 if
`pcb->fpu_state` is null; otherwise free the save-area page frame and
return 0.  The pointer itself is not modified. -/
def processor_free_pcb (hhdm : Nat) (p : Proc) (st : PhysMem) :
    PcbFreeResult :=
  match p.pcb.fpu_state with
  | none => ⟨-1, p, st⟩
  | some va => ⟨0, p, vm_free_pageframe (VIRT_TO_PHYS hhdm va) st⟩

/-! ## Bring-up Sequencer (`pre_init`, machdep.c lines 127-146) -/

/-- The observable calls `pre_init` makes, in source order:
`uart8250_try_init()`, `vm_physseg_init()`, `vm_init()`,
`interrupts_init()`, `gdt_load(&g_gdtr)`. -/
inductive BootStep where
  | uartTryInit
  | physsegInit
  | vmInit
  | idtInstall
  | gdtLoadStep
deriving DecidableEq, Repr

/-- The persistent static of `pre_init`: `static bool is_bsp = true`. -/
structure BootState where
  is_bsp : Bool
deriving DecidableEq, Repr

/-- The static initializer: at kernel entry `is_bsp` is `true`. -/
def bootEntry : BootState := ⟨true⟩

/-- `pre_init` (machdep.c lines 127-146): on the call that still sees
`is_bsp` set, clear it and run the three once-per-boot steps, then on
every call install the interrupt vector table and load the segment
descriptor table.  Returns the new static state and the trace of calls
made, in order. -/
def pre_init (s : BootState) : BootState × List BootStep :=
  if s.is_bsp then
    (⟨false⟩,
     [BootStep.uartTryInit, BootStep.physsegInit, BootStep.vmInit,
      BootStep.idtInstall, BootStep.gdtLoadStep])
  else
    (s, [BootStep.idtInstall, BootStep.gdtLoadStep])

/-- The concatenated trace of `n` successive `pre_init` calls starting
from static state `s` (one call per core, as each core boots). -/
def pre_init_trace : Nat → BootState → List BootStep
  | 0, _ => []
  | n + 1, s => (pre_init s).2 ++ pre_init_trace n (pre_init s).1

/-! ## Per-Processor Orchestrator discovery race (`processor_init`,
machdep.c lines 211-263)

`processor_init` guards the global one-shot work (MADT parse and I/O
APIC init, gated by the static `init_flags`) with `CPU_INFO_LOCK`,
which locks the calling core's own freshly allocated `cpu_info`
descriptor.  To settle the concurrency claim we give the fragment an
interleaving semantics: each labelled line is one atomic step, cores
are interleaved by an explicit schedule, and the per-core descriptor
lock is modelled faithfully as one lock per core. -/

def INIT_FLAG_IOAPIC : Nat := 1
def INIT_FLAG_ACPI : Nat := 2

/-- Shared and per-core state for the discovery fragment of
`processor_init`.  `madt_runs` and `ioapic_runs` count executions of
`acpi_parse_madt()` and `ioapic_init()`; `lockHeld i` is core `i`'s own
`cpu_info` spinlock; `pc i` is core `i`'s position in the fragment. -/
structure MpState where
  init_flags : Nat
  madt_runs : Nat
  ioapic_runs : Nat
  lockHeld : Nat → Bool
  pc : Nat → Nat

/-- One atomic step of core `i` in the discovery fragment
(machdep.c lines 242-263).  Program counter positions:
0 `CPU_INFO_LOCK(cur_cpu)` (blocks while held; each core has its own);
1 test `!__TEST(init_flags, INIT_FLAG_ACPI)`;
2 `init_flags |= INIT_FLAG_ACPI`;
3 `acpi_parse_madt(cur_cpu)`;
4 test `!__TEST(init_flags, INIT_FLAG_IOAPIC)`;
5 `init_flags |= INIT_FLAG_IOAPIC`;
6 `ioapic_init()`;
7 `CPU_INFO_UNLOCK(cur_cpu)`; 8 done. -/
def mpStep (i : Nat) (s : MpState) : MpState :=
  match s.pc i with
  | 0 => if s.lockHeld i then s
         else { s with
                lockHeld := fun j => if j = i then true else s.lockHeld j,
                pc := fun j => if j = i then 1 else s.pc j }
  | 1 => { s with pc := fun j => if j = i then
                    (if s.init_flags &&& INIT_FLAG_ACPI = 0 then 2 else 4)
                  else s.pc j }
  | 2 => { s with init_flags := s.init_flags ||| INIT_FLAG_ACPI,
                  pc := fun j => if j = i then 3 else s.pc j }
  | 3 => { s with madt_runs := s.madt_runs + 1,
                  pc := fun j => if j = i then 4 else s.pc j }
  | 4 => { s with pc := fun j => if j = i then
                    (if s.init_flags &&& INIT_FLAG_IOAPIC = 0 then 5 else 7)
                  else s.pc j }
  | 5 => { s with init_flags := s.init_flags ||| INIT_FLAG_IOAPIC,
                  pc := fun j => if j = i then 6 else s.pc j }
  | 6 => { s with ioapic_runs := s.ioapic_runs + 1,
                  pc := fun j => if j = i then 7 else s.pc j }
  | 7 => { s with lockHeld := fun j => if j = i then false else s.lockHeld j,
                  pc := fun j => if j = i then 8 else s.pc j }
  | _ => s

/-- Run a schedule: at each schedule entry the named core takes one
atomic step. -/
def mpRun (sched : List Nat) (s : MpState) : MpState :=
  sched.foldl (fun st i => mpStep i st) s

/-- Kernel entry: `init_flags` is 0, nothing has run, no lock is held,
every core is before the fragment. -/
def mpStart : MpState :=
  ⟨0, 0, 0, fun _ => false, fun _ => 0⟩

/-! ## Formatted logging (`vkprintf`, kern_syslog.c lines 38-61) -/

/-- Modelled from the spec: `vsnprintf(buffer, size, fmt, ap)` (body
outside the given sources; standard C contract) writes at most
`size - 1` formatted bytes plus a terminating NUL into the buffer.
`formatted` is the full untruncated byte sequence the format expansion
produces.  The buffer is `char buffer[1024] = {0}`, so the bytes past
the written region are already NUL. -/
def vsnprintf_buffer (size : Nat) (formatted : List Nat) : List Nat :=
  formatted.take (size - 1) ++
    List.replicate (size - min formatted.length (size - 1)) 0

/-- Modelled from the spec: `strlen` (body outside the given sources;
standard C contract) counts the bytes before the first NUL. -/
def strlen (l : List Nat) : Nat := (l.takeWhile (fun c => c != 0)).length

/-- `vkprintf` (kern_syslog.c lines 54-61): format into the 1024-byte
zero-initialized buffer, then pass the first `strlen(buffer)` bytes to
`syslog_write`, which emits exactly those bytes in order (one
`tty_putc` per byte, kern_syslog.c lines 38-52).  The result is the
emitted byte sequence. -/
def vkprintf (formatted : List Nat) : List Nat :=
  (vsnprintf_buffer 1024 formatted).take (strlen (vsnprintf_buffer 1024 formatted))

end Hyra

namespace Hyra

/-- After a call sequence, vector `v` holds the last write to `v` if
one occurred, and the prior table's entry otherwise. -/
theorem idt_install_lookup (l : List (Nat × IdtEntry)) (t : Idt) (v : Nat) :
    idt_install l t v =
      match idt_lookup l v with
      | some e => some e
      | none => t v := by
  induction l generalizing t with
  | nil => rfl
  | cons hd rest ih =>
    obtain ⟨vec, e⟩ := hd
    simp only [idt_install, idt_lookup, ih, idt_set_desc]
    cases h : idt_lookup rest v with
    | some e' => rfl
    | none => split_ifs <;> rfl

/-- Replaying any call sequence on the table it produced changes
nothing. -/
theorem idt_install_idem (l : List (Nat × IdtEntry)) (t : Idt) :
    idt_install l (idt_install l t) = idt_install l t := by
  funext v
  have h1 := idt_install_lookup l (idt_install l t) v
  have h2 := idt_install_lookup l t v
  cases h : idt_lookup l v with
  | some e =>
    rw [h] at h1 h2
    rw [h1, h2]
  | none =>
    rw [h] at h1
    exact h1

/-- C8: Installing the 256-entry interrupt vector table a second time
with identical inputs leaves the table observably unchanged: for any
gate-flag constants, handler addresses and prior table state, running
`interrupts_init` twice produces the same table as running it once. -/
theorem interrupts_init_idempotent (trapFlags intUserFlags : Nat)
    (addr : Handler → Nat) (t : Idt) :
    interrupts_init trapFlags intUserFlags addr
        (interrupts_init trapFlags intUserFlags addr t) =
      interrupts_init trapFlags intUserFlags addr t :=
  idt_install_idem (interrupts_init_entries trapFlags intUserFlags addr) t

/-- C2: For every feature-flag word and control-register state, the
Feature Enabler succeeds if and only if EDX bits 25 (SSE) and 26 (SSE2)
are both set; on success the resulting CR0 has the emulate-FP bit 2
clear and the native-FP bit 1 set, and the resulting CR4 has the two
fast save/restore bits 9 and 10 set; otherwise it halts (no result). -/
theorem sse_enable_iff_bits (edx : Nat) (r : CtrlRegs) :
    ((sse_enable edx r).isSome ↔ (edx.testBit 25 ∧ edx.testBit 26)) ∧
    (∀ r', sse_enable edx r = some r' →
      r'.cr0.testBit 2 = false ∧ r'.cr0.testBit 1 = true ∧
      r'.cr4.testBit 9 = true ∧ r'.cr4.testBit 10 = true) := by
  constructor
  · unfold sse_enable is_sse_supported
    split_ifs with h
    · simp only [Option.isSome_some, true_iff]
      exact ⟨(Bool.and_eq_true _ _ ▸ h).1, (Bool.and_eq_true _ _ ▸ h).2⟩
    · simp only [Option.isSome_none, Bool.false_eq_true, false_iff]
      intro hc
      exact h (by simp [hc.1, hc.2])
  · intro r' hr'
    unfold sse_enable at hr'
    split_ifs at hr' with h
    · cases hr'
      refine ⟨?_, ?_, ?_, ?_⟩
      · have hm : notBit2_64.testBit 2 = false := by decide
        have h1 : (2 ^ 1 : Nat).testBit 2 = false := by decide
        simp only [Nat.testBit_lor, Nat.testBit_land, hm, h1, Bool.and_false,
          Bool.or_false]
      · have h1 : (2 ^ 1 : Nat).testBit 1 = true := by decide
        simp only [Nat.testBit_lor, h1, Bool.or_true]
      · have h9 : (3 <<< 9 : Nat).testBit 9 = true := by decide
        simp only [Nat.testBit_lor, h9, Bool.or_true]
      · have h10 : (3 <<< 9 : Nat).testBit 10 = true := by decide
        simp only [Nat.testBit_lor, h10, Bool.or_true]

/-- C5: `switch_context(outgoing, incoming)` with incoming present:
when outgoing is absent (null) no save area is written — memory is
unchanged; when outgoing is present the live image is captured into its
save area and nothing else changes; in both cases the live registers
end up equal to incoming's save-area contents as they stand after the
capture. -/
theorem processor_switch_to_contract (old_td : Option Proc) (new_td : Proc)
    (m : FpuMachine) :
    ((processor_switch_to old_td new_td m).mem =
      match old_td with
      | none => m.mem
      | some o => fun a =>
          if a = ptrVal o.pcb.fpu_state then m.live else m.mem a) ∧
    (processor_switch_to old_td new_td m).live =
      (processor_switch_to old_td new_td m).mem
        (ptrVal new_td.pcb.fpu_state) := by
  cases old_td <;> exact ⟨rfl, rfl⟩

/-- C4: switching from A to B and later back to A restores A's
floating-point/SIMD image bit-for-bit, provided A executed no
floating-point instruction in between.  `liveB` is the arbitrary live
image B's execution leaves behind (running B may change live registers
but no save area); `hne` records that the two processes hold distinct
save-area pages, as the page allocator guarantees. -/
theorem switch_context_roundtrip (A B : Proc) (aA aB : Nat)
    (hA : A.pcb.fpu_state = some aA) (hB : B.pcb.fpu_state = some aB)
    (hne : aA ≠ aB) (m : FpuMachine) (liveB : FpuImage) :
    (processor_switch_to (some B) A
        { processor_switch_to (some A) B m with live := liveB }).live =
      m.live := by
  simp [processor_switch_to, amd64_fxsave, amd64_fxrstor, hA, hB, ptrVal, hne]

/-- Witness for C4: a concrete round trip between two processes with
distinct save areas restores the first image. -/
theorem switch_context_roundtrip_witness :
    (processor_switch_to (some ⟨⟨some 4112⟩⟩) ⟨⟨some 16⟩⟩
        { processor_switch_to (some ⟨⟨some 16⟩⟩) ⟨⟨some 4112⟩⟩
            ⟨⟨1, 2, 3⟩, fun _ => ⟨0, 0, 0⟩⟩ with live := ⟨7, 7, 7⟩ }).live =
      (⟨⟨1, 2, 3⟩, fun _ => ⟨0, 0, 0⟩⟩ : FpuMachine).live :=
  switch_context_roundtrip ⟨⟨some 16⟩⟩ ⟨⟨some 4112⟩⟩ 16 4112 rfl rfl
    (by decide) ⟨⟨1, 2, 3⟩, fun _ => ⟨0, 0, 0⟩⟩ ⟨7, 7, 7⟩

/-- C3: `allocate(process)` either succeeds, returning 0 with a 16-byte
aligned save area whose initial contents are the captured live image
with the sysv ABI control defaults loaded, or, when no physical page is
available, returns -1 with the allocator state untouched, the FPU
machine untouched, and the save-area pointer null. -/
theorem processor_init_pcb_contract (hhdm : Nat) (p : Proc) (st : PhysMem)
    (m : FpuMachine) (hal : pageAligned st) (hh : 16 ∣ hhdm) :
    (st.free = [] →
      (processor_init_pcb hhdm p st m).ret = -1 ∧
      (processor_init_pcb hhdm p st m).proc.pcb.fpu_state = none ∧
      (processor_init_pcb hhdm p st m).physmem = st ∧
      (processor_init_pcb hhdm p st m).machine = m) ∧
    (∀ pa rest, st.free = pa :: rest →
      (processor_init_pcb hhdm p st m).ret = 0 ∧
      (processor_init_pcb hhdm p st m).proc.pcb.fpu_state =
        some (PHYS_TO_VIRT hhdm pa) ∧
      16 ∣ PHYS_TO_VIRT hhdm pa ∧
      (processor_init_pcb hhdm p st m).machine.mem (PHYS_TO_VIRT hhdm pa) =
        { m.live with fcw := FPU_FCW, mxcsr := SSE_MXCSR }) := by
  constructor
  · intro h
    simp [processor_init_pcb, vm_alloc_pageframe, h]
  · intro pa rest h
    have hpa : PAGESIZE ∣ pa := hal pa (by rw [h]; exact List.mem_cons_self pa rest)
    have h16 : (16 : Nat) ∣ pa := dvd_trans (by norm_num [PAGESIZE]) hpa
    refine ⟨?_, ?_, ?_, ?_⟩ <;>
      simp [processor_init_pcb, vm_alloc_pageframe, h, amd64_fxsave,
        PHYS_TO_VIRT, Nat.dvd_add hh h16]

/-- Witness for C3: with one 4096-aligned frame in the pool, allocation
succeeds, the pointer is 16-byte aligned, and the save area holds the
captured default image; with an empty pool it fails and the pointer is
null. -/
theorem processor_init_pcb_contract_witness :
    (processor_init_pcb 0 ⟨⟨none⟩⟩ ⟨[4096], []⟩
        ⟨⟨1, 2, 3⟩, fun _ => ⟨0, 0, 0⟩⟩).ret = 0 ∧
    (processor_init_pcb 0 ⟨⟨none⟩⟩ ⟨[], []⟩
        ⟨⟨1, 2, 3⟩, fun _ => ⟨0, 0, 0⟩⟩).ret = -1 :=
  ⟨((processor_init_pcb_contract 0 ⟨⟨none⟩⟩ ⟨[4096], []⟩
      ⟨⟨1, 2, 3⟩, fun _ => ⟨0, 0, 0⟩⟩
      (by intro a ha; rw [List.mem_singleton] at ha; subst ha; decide)
      (by decide)).2 4096 [] rfl).1,
   ((processor_init_pcb_contract 0 ⟨⟨none⟩⟩ ⟨[], []⟩
      ⟨⟨1, 2, 3⟩, fun _ => ⟨0, 0, 0⟩⟩
      (by intro a ha; simp at ha) (by decide)).1 rfl).1⟩

/-- C7: `release(process)` fails with -1 and frees nothing when the
save-area pointer is null (never allocated); otherwise it hands the
save-area page frame back to the allocator and returns 0. -/
theorem processor_free_pcb_contract (hhdm : Nat) (p : Proc) (st : PhysMem) :
    (p.pcb.fpu_state = none →
      (processor_free_pcb hhdm p st).ret = -1 ∧
      (processor_free_pcb hhdm p st).physmem = st) ∧
    (∀ va, p.pcb.fpu_state = some va →
      (processor_free_pcb hhdm p st).ret = 0 ∧
      (processor_free_pcb hhdm p st).physmem.freed =
        st.freed ++ [VIRT_TO_PHYS hhdm va]) := by
  constructor
  · intro h
    simp [processor_free_pcb, h]
  · intro va h
    simp [processor_free_pcb, h, vm_free_pageframe]

/-- Witness for C7: release on a never-allocated process fails; release
on an allocated one succeeds. -/
theorem processor_free_pcb_contract_witness :
    (processor_free_pcb 0 ⟨⟨none⟩⟩ ⟨[], []⟩).ret = -1 ∧
    (processor_free_pcb 0 ⟨⟨some 4096⟩⟩ ⟨[], []⟩).ret = 0 :=
  ⟨((processor_free_pcb_contract 0 ⟨⟨none⟩⟩ ⟨[], []⟩).1 rfl).1,
   ((processor_free_pcb_contract 0 ⟨⟨some 4096⟩⟩ ⟨[], []⟩).2 4096 rfl).1⟩

/-- C9: a successful release leaves the save-area pointer set, so a
second release on the same process also returns 0 and frees the same
page frame a second time — only the never-allocated case is detected. -/
theorem processor_free_pcb_double (hhdm : Nat) (p : Proc) (st : PhysMem)
    (va : Nat) (h : p.pcb.fpu_state = some va) :
    (processor_free_pcb hhdm p st).proc.pcb.fpu_state = some va ∧
    (processor_free_pcb hhdm
        (processor_free_pcb hhdm p st).proc
        (processor_free_pcb hhdm p st).physmem).ret = 0 ∧
    (processor_free_pcb hhdm
        (processor_free_pcb hhdm p st).proc
        (processor_free_pcb hhdm p st).physmem).physmem.freed =
      st.freed ++ [VIRT_TO_PHYS hhdm va, VIRT_TO_PHYS hhdm va] := by
  simp [processor_free_pcb, vm_free_pageframe, h]

/-- Witness for C9: a concrete double release returns 0 twice and logs
the same frame twice. -/
theorem processor_free_pcb_double_witness :
    (processor_free_pcb 0 ⟨⟨some 4096⟩⟩ ⟨[], []⟩).proc.pcb.fpu_state =
      some 4096 ∧
    (processor_free_pcb 0
        (processor_free_pcb 0 ⟨⟨some 4096⟩⟩ ⟨[], []⟩).proc
        (processor_free_pcb 0 ⟨⟨some 4096⟩⟩ ⟨[], []⟩).physmem).ret = 0 ∧
    (processor_free_pcb 0
        (processor_free_pcb 0 ⟨⟨some 4096⟩⟩ ⟨[], []⟩).proc
        (processor_free_pcb 0 ⟨⟨some 4096⟩⟩ ⟨[], []⟩).physmem).physmem.freed =
      ([] : List Nat).append [VIRT_TO_PHYS 0 4096, VIRT_TO_PHYS 0 4096] :=
  processor_free_pcb_double 0 ⟨⟨some 4096⟩⟩ ⟨[], []⟩ 4096 rfl

/-- The trace of calls after the once-per-boot flag is spent: every
later call contributes exactly the two per-core steps. -/
theorem pre_init_trace_after_bsp (m : Nat) (step : BootStep) :
    (pre_init_trace m ⟨false⟩).count step =
      m * ([BootStep.idtInstall, BootStep.gdtLoadStep].count step) := by
  induction m with
  | zero => simp [pre_init_trace]
  | succ k ih =>
    rw [pre_init_trace, List.count_append]
    have hp : pre_init ⟨false⟩ = (⟨false⟩, [BootStep.idtInstall, BootStep.gdtLoadStep]) := rfl
    rw [hp]
    simp only [ih]
    ring

/-- C6: `pre_init` runs the debug transmit path init, the physical
memory segment tracker init and the virtual memory init, in that strict
order, on the first call only — gated by the internal `is_bsp` static,
not a parameter — and on every call installs the interrupt vector table
and loads the segment descriptor table.  Over any `n ≥ 1` successive
calls from kernel entry, each one-time step appears exactly once in the
combined trace while the two per-core steps appear `n` times. -/
theorem pre_init_contract (n : Nat) (hn : 1 ≤ n) :
    ((pre_init bootEntry).2 =
      [BootStep.uartTryInit, BootStep.physsegInit, BootStep.vmInit,
       BootStep.idtInstall, BootStep.gdtLoadStep]) ∧
    ((pre_init bootEntry).1.is_bsp = false) ∧
    (∀ s : BootState, s.is_bsp = false →
      pre_init s = (s, [BootStep.idtInstall, BootStep.gdtLoadStep])) ∧
    (pre_init_trace n bootEntry).count BootStep.uartTryInit = 1 ∧
    (pre_init_trace n bootEntry).count BootStep.physsegInit = 1 ∧
    (pre_init_trace n bootEntry).count BootStep.vmInit = 1 ∧
    (pre_init_trace n bootEntry).count BootStep.idtInstall = n ∧
    (pre_init_trace n bootEntry).count BootStep.gdtLoadStep = n := by
  obtain ⟨m, rfl⟩ : ∃ m, n = m + 1 := ⟨n - 1, (Nat.succ_pred_eq_of_pos hn).symm⟩
  refine ⟨rfl, rfl, ?_, ?_, ?_, ?_, ?_, ?_⟩
  · intro s hs
    obtain ⟨b⟩ := s
    cases b
    · rfl
    · simp at hs
  all_goals
    rw [pre_init_trace, List.count_append]
    have hb : pre_init bootEntry =
        (⟨false⟩,
         [BootStep.uartTryInit, BootStep.physsegInit, BootStep.vmInit,
          BootStep.idtInstall, BootStep.gdtLoadStep]) := rfl
    rw [hb]
    rw [pre_init_trace_after_bsp]
    simp [List.count_cons]
    try ring
    try omega

/-- Witness for C6: over two calls from kernel entry, the one-time
steps each appear once and the per-core steps twice. -/
theorem pre_init_contract_witness :
    (pre_init_trace 2 bootEntry).count BootStep.uartTryInit = 1 ∧
    (pre_init_trace 2 bootEntry).count BootStep.idtInstall = 2 :=
  ⟨(pre_init_contract 2 (by decide)).2.2.2.1,
   (pre_init_contract 2 (by decide)).2.2.2.2.2.2.1⟩

/-- C1 (failing execution): the discovery fragment of `processor_init`
is racy.  Two cores, each holding its own descriptor lock, interleaved
one line at a time, both pass the `init_flags` test before either sets
a flag, so `acpi_parse_madt` and `ioapic_init` each run twice, even
though both cores complete the fragment (reach pc 8).  When the two
cores run serialized instead, each runs exactly once — the exactly-once
behaviour holds only without concurrency, not through any shared-lock
or atomic check-and-set. -/
theorem processor_init_discovery_race :
    (mpRun [0, 1, 0, 1, 0, 1, 0, 1, 0, 1, 0, 1, 0, 1, 0, 1] mpStart).madt_runs = 2 ∧
    (mpRun [0, 1, 0, 1, 0, 1, 0, 1, 0, 1, 0, 1, 0, 1, 0, 1] mpStart).ioapic_runs = 2 ∧
    (mpRun [0, 1, 0, 1, 0, 1, 0, 1, 0, 1, 0, 1, 0, 1, 0, 1] mpStart).pc 0 = 8 ∧
    (mpRun [0, 1, 0, 1, 0, 1, 0, 1, 0, 1, 0, 1, 0, 1, 0, 1] mpStart).pc 1 = 8 ∧
    (mpRun [0, 0, 0, 0, 0, 0, 0, 0, 1, 1, 1, 1, 1, 1, 1, 1] mpStart).madt_runs = 1 ∧
    (mpRun [0, 0, 0, 0, 0, 0, 0, 0, 1, 1, 1, 1, 1, 1, 1, 1] mpStart).ioapic_runs = 1 := by
  refine ⟨rfl, rfl, rfl, rfl, rfl, rfl⟩

/-- C10: `vkprintf` emits at most 1023 bytes: the emitted sequence is
the formatted output truncated to 1023 bytes and cut at the first NUL
byte the formatting produced. -/
theorem vkprintf_truncates (formatted : List Nat) :
    (vkprintf formatted).length ≤ 1023 ∧
    vkprintf formatted = (formatted.take 1023).takeWhile (fun c => c != 0) := by
  have key : vkprintf formatted =
      (formatted.take 1023).takeWhile (fun c => c != 0) := by
    rw [vkprintf]
    have htw := List.takeWhile_prefix (l := vsnprintf_buffer 1024 formatted)
      (p := fun c => c != 0)
    rw [strlen, ← List.prefix_iff_eq_take.mp htw]
    rw [vsnprintf_buffer]
    show ((formatted.take 1023) ++ _).takeWhile _ = _
    generalize formatted.take 1023 = t
    generalize 1024 - min formatted.length 1023 = k
    induction t with
    | nil =>
      cases k with
      | zero => rfl
      | succ j => simp [List.replicate_succ, List.takeWhile_cons]
    | cons hd tl ih =>
      by_cases h : hd = 0
      · subst h
        simp [List.takeWhile_cons]
      · simp [List.takeWhile_cons, h, ih]
  refine ⟨?_, key⟩
  rw [key]
  calc ((formatted.take 1023).takeWhile (fun c => c != 0)).length
      ≤ (formatted.take 1023).length :=
        (List.takeWhile_prefix _).length_le
    _ ≤ 1023 := List.length_take_le _ _

/-- Witness for C2: at the concrete feature word with bits 25 and 26 set
and concrete register values, the enabler succeeds and sets the bits as
stated. -/
theorem sse_enable_iff_bits_witness :
    ((sse_enable (2 ^ 25 + 2 ^ 26) ⟨5, 0⟩).isSome ↔
      ((2 ^ 25 + 2 ^ 26 : Nat).testBit 25 ∧ (2 ^ 25 + 2 ^ 26 : Nat).testBit 26)) ∧
    (∀ r', sse_enable (2 ^ 25 + 2 ^ 26) ⟨5, 0⟩ = some r' →
      r'.cr0.testBit 2 = false ∧ r'.cr0.testBit 1 = true ∧
      r'.cr4.testBit 9 = true ∧ r'.cr4.testBit 10 = true) :=
  sse_enable_iff_bits (2 ^ 25 + 2 ^ 26) ⟨5, 0⟩

end Hyra
